import Mathlib

/-!
# Options-Dash analytics pipeline: embedding and verification

A shallow embedding of `options_dashboard/dashboard/views.py` (the
analytics/caching pipeline of the Options-Dash repository) together with
proofs about its behaviour.

Modelling conventions:
* pandas `DataFrame`s become typed lists of row structures;
* timestamps (`datetime64`) become a `DateTime` structure compared through
  seconds-since-epoch (`toSec`);
* machine floats become `ℚ` (values are only parsed, compared and passed
  through; no float rounding is exercised by the verified properties);
* a `NaN` produced by an unmatched `merge_asof` row becomes `Option.none`;
* Python exceptions become `Except PyErr`; a `try/except` block becomes a
  `match` on the `Except` value of the protected computation;
* the Django cache becomes an explicit `String → Option CacheVal` map and a
  list of performed writes (key, value, ttl);
* external collaborators (filesystem mtimes, CSV reads, the
  implied-volatility solver, the Greeks formula, the instrument enumerator)
  are inputs of an `Env` record, each returning `Except PyErr _` so that
  their failures can be injected.
-/

/-! ## Basic string helpers (kernel-reduction-friendly) -/

/-- Split a character list at every occurrence of `sep`
(Python `str.split(sep)`: splitting the empty string yields `[""]`). -/
def splitOnChar (sep : Char) : List Char → List (List Char)
  | [] => [[]]
  | c :: rest =>
    let r := splitOnChar sep rest
    if c = sep then [] :: r
    else
      match r with
      | h :: t => (c :: h) :: t
      | [] => [[c]]

/-- Python `str.split(',')` on a Lean string. -/
def pySplit (sep : Char) (s : String) : List String :=
  (splitOnChar sep s.data).map String.mk

/-- ASCII whitespace recognised by Python `str.strip()`. -/
def isPySpace (c : Char) : Bool :=
  c = ' ' || c = '\t' || c = '\n' || c = '\r' || c.toNat == 11 || c.toNat == 12

/-- Python `str.strip()` (ASCII whitespace). -/
def pyStrip (s : String) : String :=
  String.mk (((s.data.dropWhile isPySpace).reverse.dropWhile isPySpace).reverse)

/-- Join strings with a separator. -/
def joinSep (sep : String) : List String → String
  | [] => ""
  | [x] => x
  | x :: y :: t => x ++ sep ++ joinSep sep (y :: t)

/-- The numeric value of a nonempty all-digit character list, else `none`. -/
def digitsToNat? (cs : List Char) : Option Nat :=
  if cs ≠ [] ∧ cs.all (fun c => c.isDigit) then
    some (cs.foldl (fun acc c => 10 * acc + (c.toNat - 48)) 0)
  else none

/-- Zero-pad a numeral to two characters (`strftime` field rendering). -/
def pad2 (n : Nat) : String :=
  if n < 10 then "0" ++ toString n else toString n

/-- Zero-pad a numeral to four characters (year rendering). -/
def pad4 (n : Nat) : String :=
  if n < 10 then "000" ++ toString n
  else if n < 100 then "00" ++ toString n
  else if n < 1000 then "0" ++ toString n
  else toString n

/-! ## Timestamps

The `datetime` column of the CSV files: a timezone-naive calendar
date-time.  Clock fields are range-constrained (`Fin`), as they are for
every Python `datetime` / pandas `Timestamp` value. -/

structure DateTime where
  year : Nat
  month : Nat
  day : Nat
  hour : Fin 24
  minute : Fin 60
  second : Fin 60
deriving DecidableEq, Repr

/-- Days from 1970-01-01 of the civil date `y-m-d`
(the standard days-from-civil algorithm; exact for `y ≥ 1`). -/
def daysFromCivil (y m d : Nat) : Int :=
  let y' := if m ≤ 2 then y - 1 else y
  let era := y' / 400
  let yoe := y' - era * 400
  let mp := if 2 < m then m - 3 else m + 9
  let doy := (153 * mp + 2) / 5 + d - 1
  let doe := yoe * 365 + yoe / 4 - yoe / 100 + doy
  (↑(era * 146097 + doe) : Int) - 719468

/-- Seconds since 1970-01-01T00:00:00 (timezone-naive). -/
def toSec (t : DateTime) : Int :=
  86400 * daysFromCivil t.year t.month t.day +
    (3600 * t.hour.val + 60 * t.minute.val + t.second.val)

/-- `ts.strftime("%H:%M")`. -/
def strftimeHM (t : DateTime) : String :=
  pad2 t.hour.val ++ ":" ++ pad2 t.minute.val

/-- `ts.isoformat()` for a whole-second timestamp. -/
def isoformat (t : DateTime) : String :=
  pad4 t.year ++ "-" ++ pad2 t.month ++ "-" ++ pad2 t.day ++ "T" ++
    pad2 t.hour.val ++ ":" ++ pad2 t.minute.val ++ ":" ++ pad2 t.second.val

/-- Day count of a month, accounting for leap years. -/
def daysInMonth (y m : Nat) : Nat :=
  if m = 2 then
    if y % 4 = 0 ∧ (y % 100 ≠ 0 ∨ y % 400 = 0) then 29 else 28
  else if m = 4 ∨ m = 6 ∨ m = 9 ∨ m = 11 then 30
  else 31

/-! ## Python-level error values -/

inductive PyErr where
  | valueError (msg : String)
  | oserror (msg : String)
  | exn (msg : String)
deriving DecidableEq, Repr

deriving instance DecidableEq for Except

/-- `datetime.strptime(s, "%Y-%m-%d")`: parse an ISO date, midnight clock. -/
def strptimeYmd (s : String) : Except PyErr DateTime :=
  match (splitOnChar '-' s.data) with
  | [ys, ms, ds] =>
    match digitsToNat? ys, digitsToNat? ms, digitsToNat? ds with
    | some y, some m, some d =>
      if 1 ≤ y ∧ ys.length ≤ 4 ∧ 1 ≤ m ∧ m ≤ 12 ∧ ms.length ≤ 2 ∧
          1 ≤ d ∧ d ≤ daysInMonth y m ∧ ds.length ≤ 2 then
        .ok ⟨y, m, d, 0, 0, 0⟩
      else .error (.valueError ("time data " ++ s ++ " does not match format %Y-%m-%d"))
    | _, _, _ => .error (.valueError ("time data " ++ s ++ " does not match format %Y-%m-%d"))
  | _ => .error (.valueError ("time data " ++ s ++ " does not match format %Y-%m-%d"))

/-! ## Python `float()` on strings, and float `repr`

Exact rational readings of decimal literals.  The verified properties only
parse, render and compare these values, so exact rationals stand in for
IEEE doubles; non-finite floats (`inf`, `nan`) are outside the modelled
input range. -/

/-- Leading run of decimal digits and the remainder. -/
def takeDigits : List Char → (List Char × List Char)
  | [] => ([], [])
  | c :: rest =>
    if c.isDigit then
      let (ds, r) := takeDigits rest
      (c :: ds, r)
    else ([], c :: rest)

def digitsVal (cs : List Char) : Nat :=
  cs.foldl (fun acc c => 10 * acc + (c.toNat - 48)) 0

/-- Mantissa `digits[.digits]` (at least one digit), with the remainder;
the value `intpart + fracpart / 10^len` is assembled through `mkRat` so it
evaluates by kernel reduction. -/
def parseMantissa (cs : List Char) : Option (ℚ × List Char) :=
  let (ip, rest) := takeDigits cs
  match rest with
  | '.' :: rest2 =>
    let (fp, rest3) := takeDigits rest2
    if ip.isEmpty && fp.isEmpty then none
    else some (mkRat (digitsVal ip * 10 ^ fp.length + digitsVal fp) (10 ^ fp.length), rest3)
  | _ => if ip.isEmpty then none else some (mkRat (digitsVal ip) 1, rest)

/-- Signed decimal literal with optional exponent (the power of ten folds
into numerator or denominator of a `mkRat`). -/
def parseFloatCore (cs : List Char) : Option ℚ :=
  let (neg, cs1) : Bool × List Char :=
    match cs with
    | '+' :: r => (false, r)
    | '-' :: r => (true, r)
    | r => (false, r)
  (parseMantissa cs1).bind fun mr =>
    let signed : ℚ := if neg then -mr.1 else mr.1
    match mr.2 with
    | [] => some signed
    | 'e' :: r => parseExp signed r
    | 'E' :: r => parseExp signed r
    | _ => none
where
  parseExp (m : ℚ) (r : List Char) : Option ℚ :=
    let (eneg, r1) : Bool × List Char :=
      match r with
      | '+' :: r2 => (false, r2)
      | '-' :: r2 => (true, r2)
      | r2 => (false, r2)
    let (ds, r2) := takeDigits r1
    if ds.isEmpty || !r2.isEmpty then none
    else if eneg then some (mkRat m.num (m.den * 10 ^ digitsVal ds))
    else some (mkRat (m.num * 10 ^ digitsVal ds) m.den)

/-- Python `float(s)`: strip whitespace, parse, `ValueError` on failure. -/
def pyFloat (s : String) : Except PyErr ℚ :=
  match parseFloatCore (pyStrip s).data with
  | some q => .ok q
  | none => .error (.valueError ("could not convert string to float: " ++ s))

/-- Least `k` (searching upward, bounded by fuel) with `den ∣ 10 ^ k`,
i.e. with `q * 10 ^ k` integral for a reduced `q`. -/
def decExpNat (den : Nat) : Nat → Nat → Option Nat
  | _, 0 => none
  | k, fuel + 1 => if 10 ^ k % den = 0 then some k else decExpNat den (k + 1) fuel

/-- Python `repr` of a nonnegative float whose value is a decimal rational
(the regime exercised by the pipeline: mtimes, strikes, rates). -/
def floatReprNN (q : ℚ) : String :=
  if q.den = 1 then toString q.num ++ ".0"
  else
    match decExpNat q.den 1 1100 with
    | some k =>
      let n := (q.num * 10 ^ k / q.den).toNat
      let ip := n / 10 ^ k
      let fpDigits := toString (n % 10 ^ k)
      let fp := String.mk (List.replicate (k - fpDigits.data.length) '0') ++ fpDigits
      toString ip ++ "." ++ fp
    | none => toString q.num ++ "/" ++ toString q.den

/-- Python `repr` / `str` of a float (decimal-rational regime). -/
def floatRepr (q : ℚ) : String :=
  if q < 0 then "-" ++ floatReprNN (-q) else floatReprNN q

/-! ## SHA-256 (pure ℕ arithmetic, mod 2^32) -/

def w32 (n : Nat) : Nat := n % 4294967296

def rotr (n x : Nat) : Nat := w32 ((x >>> n) ||| (x <<< (32 - n)))

def shaCh (x y z : Nat) : Nat := (x &&& y) ^^^ ((x ^^^ 4294967295) &&& z)
def shaMaj (x y z : Nat) : Nat := (x &&& y) ^^^ (x &&& z) ^^^ (y &&& z)
def bigSigma0 (x : Nat) : Nat := rotr 2 x ^^^ rotr 13 x ^^^ rotr 22 x
def bigSigma1 (x : Nat) : Nat := rotr 6 x ^^^ rotr 11 x ^^^ rotr 25 x
def smallSigma0 (x : Nat) : Nat := rotr 7 x ^^^ rotr 18 x ^^^ (x >>> 3)
def smallSigma1 (x : Nat) : Nat := rotr 17 x ^^^ rotr 19 x ^^^ (x >>> 10)

def shaK : List Nat :=
  [1116352408, 1899447441, 3049323471, 3921009573, 961987163,
   1508970993, 2453635748, 2870763221, 3624381080, 310598401,
   607225278, 1426881987, 1925078388, 2162078206, 2614888103,
   3248222580, 3835390401, 4022224774, 264347078, 604807628,
   770255983, 1249150122, 1555081692, 1996064986, 2554220882,
   2821834349, 2952996808, 3210313671, 3336571891, 3584528711,
   113926993, 338241895, 666307205, 773529912, 1294757372,
   1396182291, 1695183700, 1986661051, 2177026350, 2456956037,
   2730485921, 2820302411, 3259730800, 3345764771, 3516065817,
   3600352804, 4094571909, 275423344, 430227734, 506948616,
   659060556, 883997877, 958139571, 1322822218, 1537002063,
   1747873779, 1955562222, 2024104815, 2227730452, 2361852424,
   2428436474, 2756734187, 3204031479, 3329325298]

def shaH0 : List Nat :=
  [1779033703, 3144134277, 1013904242, 2773480762, 1359893119,
   2600822924, 528734635, 1541459225]

/-- SHA-256 padding: `0x80`, zeros, 8-byte big-endian bit length. -/
def shaPad (msg : List Nat) : List Nat :=
  let L := msg.length
  let zeros := (64 - (L + 9) % 64) % 64
  let bitLen := 8 * L
  msg ++ [0x80] ++ List.replicate zeros 0 ++
    (List.range 8).map (fun i => (bitLen >>> (8 * (7 - i))) &&& 255)

/-- Split a padded message into 64-byte blocks (fuel keeps recursion structural). -/
def shaBlocksAux : Nat → List Nat → List (List Nat)
  | 0, _ => []
  | _ + 1, [] => []
  | fuel + 1, l@(_ :: _) => l.take 64 :: shaBlocksAux fuel (l.drop 64)

def shaBlocks (l : List Nat) : List (List Nat) := shaBlocksAux (l.length + 1) l

/-- First 16 32-bit big-endian words of a 64-byte block. -/
def blockWords (b : List Nat) : List Nat :=
  (List.range 16).map (fun i =>
    (b.getD (4 * i) 0) <<< 24 ||| (b.getD (4 * i + 1) 0) <<< 16 |||
    (b.getD (4 * i + 2) 0) <<< 8 ||| b.getD (4 * i + 3) 0)

/-- Extend the 16 words of the message schedule by `n` further words. -/
def extendWords (ws : List Nat) : Nat → List Nat
  | 0 => ws
  | n + 1 =>
    let ws' := extendWords ws n
    let i := ws'.length
    ws' ++ [w32 (smallSigma1 (ws'.getD (i - 2) 0) + ws'.getD (i - 7) 0 +
                 smallSigma0 (ws'.getD (i - 15) 0) + ws'.getD (i - 16) 0)]

def shaRound (st : List Nat) (kw : Nat × Nat) : List Nat :=
  match st with
  | [a, b, c, d, e, f, g, h] =>
    let t1 := w32 (h + bigSigma1 e + shaCh e f g + kw.1 + kw.2)
    let t2 := w32 (bigSigma0 a + shaMaj a b c)
    [w32 (t1 + t2), a, b, c, w32 (d + t1), e, f, g]
  | st => st

def shaCompress (h : List Nat) (block : List Nat) : List Nat :=
  let ws := extendWords (blockWords block) 48
  let st := (ws.zip shaK).foldl shaRound h
  (h.zip st).map (fun p => w32 (p.1 + p.2))

def hexDigit (n : Nat) : Char :=
  if n < 10 then Char.ofNat (48 + n) else Char.ofNat (87 + n)

/-- Lowercase 8-hex-digit rendering of a 32-bit word. -/
def hex8 (n : Nat) : String :=
  String.mk ((List.range 8).map (fun i => hexDigit ((n >>> (4 * (7 - i))) &&& 15)))

def sha256Bytes (msg : List Nat) : List Nat :=
  (shaBlocks (shaPad msg)).foldl shaCompress shaH0

/-- UTF-8 bytes of a string, as natural numbers. -/
def utf8Bytes (s : String) : List Nat :=
  s.data.flatMap (fun c =>
    let n := c.toNat
    if n < 0x80 then [n]
    else if n < 0x800 then [0xC0 ||| (n >>> 6), 0x80 ||| (n &&& 0x3F)]
    else if n < 0x10000 then
      [0xE0 ||| (n >>> 12), 0x80 ||| ((n >>> 6) &&& 0x3F), 0x80 ||| (n &&& 0x3F)]
    else
      [0xF0 ||| (n >>> 18), 0x80 ||| ((n >>> 12) &&& 0x3F),
       0x80 ||| ((n >>> 6) &&& 0x3F), 0x80 ||| (n &&& 0x3F)])

/-- `hashlib.sha256(s.encode()).hexdigest()`. -/
def sha256hex (s : String) : String :=
  String.join ((sha256Bytes (utf8Bytes s)).map hex8)

/-- FIPS 180-4 known-answer check for the embedded SHA-256. -/
theorem sha256hex_abc :
    sha256hex "abc" = "ba7816bf8f01cfea414140de5dae2223b00361a396177a9cb410ff61f20015ad" := by
  decide

/-! ## JSON values and `json.dumps(..., sort_keys=True)` -/

inductive JVal where
  | null
  | bool (b : Bool)
  | num (q : ℚ)
  | str (s : String)
  | arr (elems : List JVal)
  | obj (fields : List (String × JVal))

/-- Hex rendering of a code unit for a `\uXXXX` escape. -/
def hex4 (n : Nat) : String :=
  String.mk ((List.range 4).map (fun i => hexDigit ((n >>> (4 * (3 - i))) &&& 15)))

/-- JSON escaping of one character, `ensure_ascii` style. -/
def jsonEscapeChar (c : Char) : String :=
  if c = '"' then "\\\""
  else if c = '\\' then "\\\\"
  else if c = '\n' then "\\n"
  else if c = '\t' then "\\t"
  else if c = '\r' then "\\r"
  else if c.toNat = 8 then "\\b"
  else if c.toNat = 12 then "\\f"
  else if c.toNat < 32 then "\\u" ++ hex4 c.toNat
  else if c.toNat < 127 then String.mk [c]
  else if c.toNat < 0x10000 then "\\u" ++ hex4 c.toNat
  else
    let v := c.toNat - 0x10000
    "\\u" ++ hex4 (0xD800 + (v >>> 10)) ++ "\\u" ++ hex4 (0xDC00 + (v &&& 0x3FF))

/-- A JSON string literal. -/
def jString (s : String) : String :=
  "\"" ++ String.join (s.data.map jsonEscapeChar) ++ "\""

/-- Lexicographic code-point comparison of character lists: the ordering
Python `sorted` applies to mapping keys. -/
def charListLe : List Char → List Char → Bool
  | [], _ => true
  | _ :: _, [] => false
  | a :: as, b :: bs => if a = b then charListLe as bs else decide (a.toNat < b.toNat)

/-- Python string `<=` (code-point lexicographic). -/
def pyStrLe (a b : String) : Bool := charListLe a.data b.data

/-- The recursion budget of the serializer, standing in for the Python
recursion limit that bounds `json.dumps` nesting. -/
def jsonFuel : Nat := 1000

/-- Key-order normalization: recursively sort every mapping by key
(fuel keeps the nested recursion structural). -/
def sortJsonKeysF : Nat → JVal → JVal
  | 0, v => v
  | fuel + 1, .arr l => .arr (l.map (sortJsonKeysF fuel))
  | fuel + 1, .obj fs =>
    .obj (List.insertionSort (fun a b => pyStrLe a.1 b.1 = true)
      (fs.map (fun p => (p.1, sortJsonKeysF fuel p.2))))
  | _ + 1, v => v

def sortJsonKeys (v : JVal) : JVal := sortJsonKeysF jsonFuel v

/-- Serialize in the given field order, with the default `json.dumps`
separators `", "` and `": "`. -/
def jEmitF : Nat → JVal → String
  | 0, _ => ""
  | _ + 1, .null => "null"
  | _ + 1, .bool b => if b then "true" else "false"
  | _ + 1, .num q => floatRepr q
  | _ + 1, .str s => jString s
  | fuel + 1, .arr l => "[" ++ joinSep ", " (l.map (jEmitF fuel)) ++ "]"
  | fuel + 1, .obj fs =>
    "\x7b" ++ joinSep ", " (fs.map (fun p => jString p.1 ++ ": " ++ jEmitF fuel p.2)) ++ "\x7d"

def jEmit (v : JVal) : String := jEmitF jsonFuel v

/-- `json.dumps(v, sort_keys=True)`. -/
def jsonDumpsSorted (v : JVal) : String := jEmit (sortJsonKeys v)

/-- `get_cache_key`: canonical serialization, SHA-256, `prefix + "_" + hex`. -/
def get_cache_key (pfx : String) (params : JVal) : String :=
  let param_str := jsonDumpsSorted params
  pfx ++ "_" ++ sha256hex param_str

/-! ## Data model: rows, instruments, cache, environment -/

/-- One observation of the spot series (`spot_df[['datetime', 'close']]`). -/
structure SpotRow where
  datetime : DateTime
  close : ℚ
deriving DecidableEq, Repr

/-- One observation of an option series. -/
structure OptionRow where
  datetime : DateTime
  strike : ℚ
  type : String
  close : ℚ
deriving DecidableEq, Repr

/-- A row of the asof-merged frame: option fields plus the spot close
(`close_spot`); `none` models the `NaN` of an unmatched left row. -/
structure MergedRow where
  datetime : DateTime
  strike : ℚ
  type : String
  close : ℚ
  close_spot : Option ℚ
deriving DecidableEq, Repr

/-- A merged row after the vectorized `merged_df['T'] = ...` assignment. -/
structure RowWithT extends MergedRow where
  T : ℚ
deriving DecidableEq, Repr

/-- One instrument descriptor from `list_option_files()`. -/
structure FileInfo where
  path : String
  expiry : String
  strike : ℚ
  type : String
deriving DecidableEq, Repr

/-- One element of the JSON response array. -/
structure ResultRow where
  datetime : String
  expiry : String
  strike : ℚ
  type : String
  greeks : List (String × ℚ)
deriving DecidableEq, Repr

/-- Normalized request parameters. -/
structure Params where
  r : ℚ
  time_filter : List String
deriving DecidableEq, Repr

/-- The parameter dict passed to `get_cache_key('greeks', params)`. -/
def paramsJson (p : Params) : JVal :=
  .obj [("r", .num p.r), ("time_filter", .arr (p.time_filter.map .str))]

/-- A value stored in the Django cache. -/
inductive CacheVal where
  | spotDf (df : List SpotRow)
  | optionDf (df : List OptionRow)
  | results (rs : List ResultRow)
deriving DecidableEq, Repr

abbrev Cache := String → Option CacheVal

abbrev CacheWrite := String × CacheVal × Nat

def emptyCache : Cache := fun _ => none

def cacheSet (c : Cache) (k : String) (v : CacheVal) : Cache :=
  fun k' => if k' = k then some v else c k'

def applyWrites (c : Cache) (ws : List CacheWrite) : Cache :=
  ws.foldl (fun c w => cacheSet c w.1 w.2.1) c

/-- External collaborators of the pipeline, each fallible. -/
structure Env where
  spot_mtime : Except PyErr ℚ
  spot_read : Except PyErr (List SpotRow)
  option_files : List FileInfo
  option_mtime : FileInfo → Except PyErr ℚ
  option_read : FileInfo → Except PyErr (List OptionRow)
  implied_volatility : RowWithT → Except PyErr ℚ
  compute_greeks : Option ℚ → ℚ → ℚ → ℚ → ℚ → String → Except PyErr (List (String × ℚ))

/-! ## Series loaders (`get_spot_data`, `get_option_data`) -/

/-- The mtime-derived cache key of `get_spot_data`. -/
def spot_cache_key (m : ℚ) : String := "spot_" ++ floatRepr m

/-- `get_spot_data`: mtime-keyed cached load of the spot series.  The
`pd.read_csv` stage is unprotected, so its failure propagates, as does an
`os.path.getmtime` failure. -/
def get_spot_data (env : Env) (cache : Cache) :
    Except PyErr (List SpotRow × Cache × List CacheWrite) :=
  match env.spot_mtime with
  | .error e => .error e
  | .ok spot_mtime =>
    match cache (spot_cache_key spot_mtime) with
    | some (.spotDf df) => .ok (df, cache, [])
    | _ =>
      match env.spot_read with
      | .error e => .error e
      | .ok spot_df =>
        .ok (spot_df, cacheSet cache (spot_cache_key spot_mtime) (.spotDf spot_df),
             [(spot_cache_key spot_mtime, .spotDf spot_df, 86400)])

/-- The per-instrument cache key of `get_option_data`. -/
def option_cache_key (m : ℚ) (file_info : FileInfo) : String :=
  "option_" ++ floatRepr m ++ "_" ++ file_info.expiry ++ "_" ++
    floatRepr file_info.strike ++ "_" ++ file_info.type

/-- `get_option_data`: mtime-plus-instrument-keyed cached load.  The
`getmtime` call sits outside the `try`, so its failure propagates; a
failure of the read/filter stage is caught and yields an empty frame
(nothing cached). -/
def get_option_data (env : Env) (cache : Cache) (file_info : FileInfo) :
    Except PyErr (List OptionRow × Cache × List CacheWrite) :=
  match env.option_mtime file_info with
  | .error e => .error e
  | .ok file_mtime =>
    match cache (option_cache_key file_mtime file_info) with
    | some (.optionDf df) => .ok (df, cache, [])
    | _ =>
      match env.option_read file_info with
      | .error _ => .ok ([], cache, [])
      | .ok option_df =>
        let filtered := option_df.filter
          (fun r => r.strike == file_info.strike && r.type == file_info.type)
        .ok (filtered, cacheSet cache (option_cache_key file_mtime file_info) (.optionDf filtered),
             [(option_cache_key file_mtime file_info, .optionDf filtered, 86400)])

/-! ## Time filter (`filter_by_times`) -/

/-- Python truthiness of `any(...)` over a list of strings. -/
def pyAnyStr (l : List String) : Bool := l.any (fun t => t ≠ "")

/-- `filter_by_times`: pass through when the marker list is empty or
all-blank; otherwise keep rows whose `%H:%M` rendering is a member. -/
def filter_by_times (df : List OptionRow) (time_filters : List String) : List OptionRow :=
  if time_filters.isEmpty || !pyAnyStr time_filters then df
  else
    let withTime := df.map (fun r => (r, strftimeHM r.datetime))
    let filtered := withTime.filter (fun p => time_filters.contains p.2)
    filtered.map (fun p => p.1)

/-! ## Asof merge (`merge_with_spot`)

`pd.merge_asof(..., on='datetime', direction='nearest',
tolerance=pd.Timedelta('1min'), suffixes=('', '_spot'))`: a left join
keeping every (sorted) option row once and attaching the `close` of the
nearest spot row within 60 seconds, `NaN` (here `none`) when no spot row
is in range.  Equidistant candidates resolve to the earlier (backward)
side, matching the backward-preferring tie-break of the library. -/

def sortOptionRows (df : List OptionRow) : List OptionRow :=
  List.insertionSort (fun a b => toSec a.datetime ≤ toSec b.datetime) df

def sortSpotRows (df : List SpotRow) : List SpotRow :=
  List.insertionSort (fun a b => toSec a.datetime ≤ toSec b.datetime) df

/-- Distance in seconds between a spot row and an option timestamp. -/
def spotDist (s : SpotRow) (t : Int) : Nat := (toSec s.datetime - t).natAbs

/-- Strictly better, or equally distant on the backward side. -/
def betterSpot (t : Int) (s cur : SpotRow) : Prop :=
  spotDist s t < spotDist cur t ∨
    (spotDist s t = spotDist cur t ∧ toSec s.datetime ≤ t)

instance (t : Int) (s cur : SpotRow) : Decidable (betterSpot t s cur) := by
  unfold betterSpot; infer_instance

/-- One candidate-selection step of the nearest-within-tolerance scan. -/
def nearStep (t : Int) (acc : Option SpotRow) (s : SpotRow) : Option SpotRow :=
  if spotDist s t ≤ 60 then
    match acc with
    | none => some s
    | some cur => if betterSpot t s cur then some s else some cur
  else acc

/-- The spot row nearest to `t` within the 60-second tolerance, if any. -/
def nearestSpot (spots : List SpotRow) (t : Int) : Option SpotRow :=
  spots.foldl (nearStep t) none

/-- `merge_with_spot`. -/
def merge_with_spot (option_df : List OptionRow) (spot_df : List SpotRow) :
    List MergedRow :=
  let opts := sortOptionRows option_df
  let spots := sortSpotRows spot_df
  opts.map (fun o =>
    { datetime := o.datetime, strike := o.strike, type := o.type, close := o.close,
      close_spot := (nearestSpot spots (toSec o.datetime)).map (fun s => s.close) })

/-! ## Row-wise analytics (`calculate_all_greeks`) -/

/-- The vectorized time-to-expiry column: `(expiry − ts).total_seconds()`
divided by `365 * 24 * 3600`, expressed as the exact rational
`mkRat seconds 31536000`. -/
def Tof (expiry_date : DateTime) (row : MergedRow) : ℚ :=
  mkRat (toSec expiry_date - toSec row.datetime) (365 * 24 * 3600)

/-- One iteration of the per-row loop: solve volatility, compute Greeks,
build the result dict; `none` when either external call fails. -/
def tryRow (env : Env) (file_info : FileInfo) (params : Params) (row : RowWithT) :
    Option ResultRow :=
  match env.implied_volatility row with
  | .error _ => none
  | .ok iv =>
    match env.compute_greeks row.close_spot file_info.strike row.T params.r iv
        file_info.type with
    | .error _ => none
    | .ok greeks =>
      some { datetime := isoformat row.datetime, expiry := file_info.expiry,
             strike := file_info.strike, type := file_info.type, greeks := greeks }

/-- `calculate_all_greeks`: early return on an empty frame, expiry parse,
`T` column, `T > 0` filter, then the per-row loop with its `try/except`
skip of individual failures. -/
def calculate_all_greeks (env : Env) (merged_df : List MergedRow)
    (file_info : FileInfo) (params : Params) : Except PyErr (List ResultRow) :=
  if merged_df.isEmpty then .ok []
  else
    match strptimeYmd file_info.expiry with
    | .error e => .error e
    | .ok expiry_date =>
      let withT := merged_df.map
        (fun row => ({ toMergedRow := row, T := Tof expiry_date row } : RowWithT))
      let valid_rows := withT.filter (fun row => decide (0 < row.T))
      if valid_rows.isEmpty then .ok []
      else
        .ok (valid_rows.foldl (fun results row =>
          match tryRow env file_info params row with
          | some res => results ++ [res]
          | none => results) [])

/-! ## Request pipeline (`greeks_view`) -/

/-- `float(request.GET.get('r', 0.05))`; `mkRat 5 100` is the default
literal `0.05`. -/
def normalize_r : Option String → Except PyErr ℚ
  | none => .ok (mkRat 5 100)
  | some s => pyFloat s

def default_time_filter : List String :=
  ["09:15", "10:15", "11:15", "12:15", "13:15", "15:15"]

/-- `[t for t in request.GET.get('time_filter', '').split(',') if t.strip()]`. -/
def parse_time_filter (s : String) : List String :=
  (pySplit ',' s).filter (fun t => pyStrip t ≠ "")

/-- Parameter normalization of `greeks_view`. -/
def view_params (request_r : Option String) (request_time_filter : Option String) :
    Except PyErr Params :=
  match normalize_r request_r with
  | .error e => .error e
  | .ok r =>
    let tfRaw := parse_time_filter (request_time_filter.getD "")
    .ok ⟨r, if tfRaw.isEmpty then default_time_filter else tfRaw⟩

/-- The per-instrument loop body of `greeks_view`, threading the cache and
the performed writes. -/
def process_files (env : Env) (params : Params) (spot_df : List SpotRow) :
    List FileInfo → List ResultRow × Cache × List CacheWrite →
    Except PyErr (List ResultRow × Cache × List CacheWrite)
  | [], acc => .ok acc
  | file_info :: rest, acc =>
    match get_option_data env acc.2.1 file_info with
    | .error e => .error e
    | .ok (option_df, c', w') =>
      if option_df.isEmpty then process_files env params spot_df rest (acc.1, c', acc.2.2 ++ w')
      else if (filter_by_times option_df params.time_filter).isEmpty then
        process_files env params spot_df rest (acc.1, c', acc.2.2 ++ w')
      else if (merge_with_spot (filter_by_times option_df params.time_filter) spot_df).isEmpty then
        process_files env params spot_df rest (acc.1, c', acc.2.2 ++ w')
      else
        match calculate_all_greeks env
            (merge_with_spot (filter_by_times option_df params.time_filter) spot_df)
            file_info params with
        | .error e => .error e
        | .ok file_results =>
          process_files env params spot_df rest (acc.1 ++ file_results, c', acc.2.2 ++ w')

/-- Cache miss path of `greeks_view`: load spot, process every instrument,
then cache the aggregate for an hour — only when it is non-empty. -/
def greeks_view_compute (env : Env) (params : Params) (cache_key : String)
    (cache : Cache) : Except PyErr (List ResultRow × List CacheWrite) :=
  match get_spot_data env cache with
  | .error e => .error e
  | .ok (spot_df, cache1, w1) =>
    match process_files env params spot_df env.option_files ([], cache1, []) with
    | .error e => .error e
    | .ok (all_results, _c2, w2) =>
      .ok (all_results,
           w1 ++ w2 ++
             (if all_results.isEmpty then [] else [(cache_key, .results all_results, 3600)]))

/-- `greeks_view`: normalize parameters, derive the fingerprint key, serve
a truthy cached aggregate, otherwise recompute.  Returns the response
payload and the cache writes performed. -/
def greeks_view (env : Env) (request_r : Option String)
    (request_time_filter : Option String) (cache : Cache) :
    Except PyErr (List ResultRow × List CacheWrite) :=
  match view_params request_r request_time_filter with
  | .error e => .error e
  | .ok params =>
    match cache (get_cache_key "greeks" (paramsJson params)) with
    | some (.results (x :: xs)) => .ok (x :: xs, [])
    | _ => greeks_view_compute env params (get_cache_key "greeks" (paramsJson params)) cache

/-! ## Embedding sanity checks -/

/-- The key derivation agrees with
`"greeks_" + sha256(json.dumps({'r': 0.05, 'time_filter': ['09:15', '10:15']}, sort_keys=True)).hexdigest()`
as computed by the reference implementation. -/
theorem get_cache_key_reference_value :
    get_cache_key "greeks" (paramsJson ⟨mkRat 5 100, ["09:15", "10:15"]⟩)
      = "greeks_d543a114703cc1b447a25eb430e0ce08f9f930483771ec9dba7910ffb9491136" := by
  decide

theorem jsonDumpsSorted_reference_value :
    jsonDumpsSorted (paramsJson ⟨mkRat 5 100, ["09:15", "10:15"]⟩)
      = "\x7b\"r\": 0.05, \"time_filter\": [\"09:15\", \"10:15\"]\x7d" := by
  decide

theorem pyFloat_reference_values :
    pyFloat "0.05" = .ok (mkRat 1 20) ∧ pyFloat " 1e-3" = .ok (mkRat 1 1000) ∧
    (pyFloat "abc").isOk = false := by
  refine ⟨by decide, by decide, by decide⟩

theorem strptimeYmd_reference_value :
    strptimeYmd "2024-06-28" = .ok ⟨2024, 6, 28, 0, 0, 0⟩ ∧
    (strptimeYmd "2024-13-01").isOk = false ∧ (strptimeYmd "garbage").isOk = false := by
  refine ⟨by decide, by decide, by decide⟩

/-- 1970-01-02T00:00:00 is 86400 seconds into the epoch. -/
theorem toSec_reference_value : toSec ⟨1970, 1, 2, 0, 0, 0⟩ = 86400 := by decide

/-! ## Shared concrete fixtures for witnesses and counterexamples -/

/-- An environment in which every collaborator trivially succeeds. -/
def noopEnv : Env where
  spot_mtime := .ok 1
  spot_read := .ok []
  option_files := []
  option_mtime := fun _ => .ok 1
  option_read := fun _ => .ok []
  implied_volatility := fun _ => .ok 1
  compute_greeks := fun _ _ _ _ _ _ => .ok []

def fi0 : FileInfo := ⟨"data/opt.csv", "2024-06-28", 100, "call"⟩

/-! ## C2: series-loader failure policy -/

/-- C2 counterexample: with the spot file present (mtime available) but its
read failing, `get_spot_data` propagates the failure to its caller instead
of returning an empty series — the spot read has no `try/except`. -/
theorem c2_spot_loader_raises :
    get_spot_data { noopEnv with spot_read := .error (.exn "parse error") } emptyCache
      = .error (.exn "parse error") := rfl

/-- C2 (amended): only the option loader's read/filter stage is protected —
a read failure there yields an empty frame and no exception (and nothing is
cached); the spot loader propagates read failures on a cache miss, and both
loaders' mtime lookups (e.g. a missing file) propagate their failure
unconditionally, before any cache consultation. -/
theorem c2_loader_failure_policy :
    (∀ (env : Env) (cache : Cache) (file_info : FileInfo) (m : ℚ) (e : PyErr),
      env.option_mtime file_info = .ok m →
      cache (option_cache_key m file_info) = none →
      env.option_read file_info = .error e →
      get_option_data env cache file_info = .ok ([], cache, [])) ∧
    (∀ (env : Env) (cache : Cache) (m : ℚ) (e : PyErr),
      env.spot_mtime = .ok m →
      cache (spot_cache_key m) = none →
      env.spot_read = .error e →
      get_spot_data env cache = .error e) ∧
    (∀ (env : Env) (cache : Cache) (file_info : FileInfo) (e : PyErr),
      env.option_mtime file_info = .error e →
      get_option_data env cache file_info = .error e) ∧
    (∀ (env : Env) (cache : Cache) (e : PyErr),
      env.spot_mtime = .error e →
      get_spot_data env cache = .error e) := by
  refine ⟨?_, ?_, ?_, ?_⟩
  · intro env cache file_info m e hm hc hr
    unfold get_option_data
    rw [hm]
    show (match cache (option_cache_key m file_info) with
      | some (.optionDf df) => Except.ok (df, cache, [])
      | _ => _) = _
    rw [hc, hr]
  · intro env cache m e hm hc hr
    unfold get_spot_data
    rw [hm]
    show (match cache (spot_cache_key m) with
      | some (.spotDf df) => Except.ok (df, cache, [])
      | _ => _) = _
    rw [hc, hr]
  · intro env cache file_info e hm
    unfold get_option_data
    rw [hm]
  · intro env cache e hm
    unfold get_spot_data
    rw [hm]

theorem c2_loader_failure_policy_witness :
    get_option_data { noopEnv with option_read := fun _ => .error (.exn "bad csv") }
      emptyCache fi0 = .ok ([], emptyCache, []) ∧
    get_spot_data { noopEnv with spot_read := .error (.oserror "missing") } emptyCache
      = .error (.oserror "missing") ∧
    get_option_data { noopEnv with option_mtime := fun _ => .error (.oserror "no such file") }
      emptyCache fi0 = .error (.oserror "no such file") ∧
    get_spot_data { noopEnv with spot_mtime := .error (.oserror "no such file") } emptyCache
      = .error (.oserror "no such file") :=
  ⟨c2_loader_failure_policy.1 _ emptyCache fi0 1 (.exn "bad csv") rfl rfl rfl,
   c2_loader_failure_policy.2.1 _ emptyCache 1 (.oserror "missing") rfl rfl rfl,
   c2_loader_failure_policy.2.2.1 _ emptyCache fi0 (.oserror "no such file") rfl,
   c2_loader_failure_policy.2.2.2 _ emptyCache (.oserror "no such file") rfl⟩

/-! ## C3: risk-free-rate normalization -/

/-- C3 counterexample: an unparseable `r` is not replaced by the default —
`float("abc")` raises and the error surfaces from the view. -/
theorem c3_unparseable_rate_raises :
    greeks_view noopEnv (some "abc") none emptyCache
      = .error (.valueError "could not convert string to float: abc") := rfl

/-- C3 (amended): the 0.05 default applies only when `r` is absent (an
absent `r` behaves exactly like `r=0.05`); when `r` is present but
unparseable the `float` failure propagates out of the view. -/
theorem c3_rate_normalization :
    (∀ (env : Env) (tf : Option String) (cache : Cache),
      greeks_view env none tf cache = greeks_view env (some "0.05") tf cache) ∧
    (∀ (env : Env) (tf : Option String) (cache : Cache) (s : String) (e : PyErr),
      pyFloat s = .error e → greeks_view env (some s) tf cache = .error e) := by
  constructor
  · intro env tf cache
    have h : normalize_r (some "0.05") = normalize_r none := by decide
    unfold greeks_view view_params
    rw [h]
  · intro env tf cache s e hs
    have h1 : view_params (some s) tf = .error e := by
      unfold view_params
      rw [show normalize_r (some s) = pyFloat s from rfl, hs]
    unfold greeks_view
    rw [h1]

theorem c3_rate_normalization_witness :
    greeks_view noopEnv none none emptyCache
      = greeks_view noopEnv (some "0.05") none emptyCache ∧
    greeks_view noopEnv (some "x") none emptyCache
      = .error (.valueError "could not convert string to float: x") :=
  ⟨c3_rate_normalization.1 noopEnv none emptyCache,
   c3_rate_normalization.2 noopEnv none emptyCache "x" _ rfl⟩

/-! ## C8: time-filter algebra -/

/-- On a non-pass-through marker list the temporary `time_str` column
cancels and `filter_by_times` is a plain row filter. -/
theorem filter_by_times_eq_filter (df : List OptionRow) (tf : List String)
    (h : (tf.isEmpty || !pyAnyStr tf) = false) :
    filter_by_times df tf = df.filter (fun r => tf.contains (strftimeHM r.datetime)) := by
  unfold filter_by_times
  rw [h]
  simp only [Bool.false_eq_true, if_false, List.filter_map, List.map_map]
  simp [Function.comp_def]

/-- C8: the time filter passes empty or all-blank marker sets through
unchanged, is idempotent for every marker set, and only selects rows
(the output is a sublist of the input: order preserved, fields intact). -/
theorem c8_time_filter_algebra (df : List OptionRow) (tf : List String) :
    ((tf = [] ∨ ∀ t ∈ tf, t = "") → filter_by_times df tf = df) ∧
    filter_by_times (filter_by_times df tf) tf = filter_by_times df tf ∧
    (filter_by_times df tf).Sublist df := by
  by_cases hc : (tf.isEmpty || !pyAnyStr tf) = true
  · have hid : ∀ l : List OptionRow, filter_by_times l tf = l := by
      intro l; unfold filter_by_times; rw [hc]; rfl
    exact ⟨fun _ => hid df, by rw [hid, hid], by rw [hid]⟩
  · have hc' : (tf.isEmpty || !pyAnyStr tf) = false := by
      revert hc; cases tf.isEmpty || !pyAnyStr tf <;> simp
    refine ⟨?_, ?_, ?_⟩
    · intro h
      exfalso
      rcases h with h | h
      · subst h; simp [pyAnyStr] at hc'
      · have : pyAnyStr tf = false := by
          simp only [pyAnyStr, List.any_eq_false]
          intro t ht
          simp [h t ht]
        simp [this] at hc'
    · rw [filter_by_times_eq_filter _ _ hc', filter_by_times_eq_filter _ _ hc',
          List.filter_filter]
      congr 1
      funext r
      cases tf.contains (strftimeHM r.datetime) <;> rfl
    · rw [filter_by_times_eq_filter _ _ hc']
      exact List.filter_sublist df

def rowA : OptionRow := ⟨⟨2024, 6, 27, 9, 15, 0⟩, 100, "call", 5⟩
def rowB : OptionRow := ⟨⟨2024, 6, 27, 10, 40, 0⟩, 100, "call", 6⟩

theorem c8_time_filter_algebra_witness :
    filter_by_times [rowA, rowB] [] = [rowA, rowB] ∧
    filter_by_times (filter_by_times [rowA, rowB] ["09:15"]) ["09:15"]
      = filter_by_times [rowA, rowB] ["09:15"] ∧
    (filter_by_times [rowA, rowB] ["09:15"]).Sublist [rowA, rowB] :=
  ⟨(c8_time_filter_algebra [rowA, rowB] []).1 (Or.inl rfl),
   (c8_time_filter_algebra [rowA, rowB] ["09:15"]).2.1,
   (c8_time_filter_algebra [rowA, rowB] ["09:15"]).2.2⟩

/-! ## C10: untrimmed marker entries -/

/-- `pad2` of a bounded field renders exactly two characters. -/
theorem pad2_length : ∀ n < 60, (pad2 n).length = 2 := by decide

/-- Every `%H:%M` rendering is exactly five characters long. -/
theorem strftimeHM_length (t : DateTime) : (strftimeHM t).length = 5 := by
  unfold strftimeHM
  rw [String.length_append, String.length_append]
  rw [pad2_length t.hour.val (lt_trans t.hour.isLt (by norm_num)),
      pad2_length t.minute.val t.minute.isLt]
  rfl

/-- C10: time-marker parsing keeps a whitespace-padded entry verbatim
(only fully blank entries are discarded, nothing is trimmed), and such an
entry can match no observation, because every formatted clock time has
exactly five characters. -/
theorem c10_untrimmed_marker_matches_nothing :
    parse_time_filter " 09:15" = [" 09:15"] ∧
    (∀ t : DateTime, strftimeHM t ≠ " 09:15") ∧
    (∀ df : List OptionRow, filter_by_times df [" 09:15"] = []) := by
  have hne : ∀ t : DateTime, strftimeHM t ≠ " 09:15" := by
    intro t h
    have := congrArg String.length h
    rw [strftimeHM_length] at this
    exact absurd this (by decide)
  refine ⟨by decide, hne, ?_⟩
  intro df
  rw [filter_by_times_eq_filter _ _ (by decide)]
  rw [List.filter_eq_nil_iff]
  intro r _
  simp [hne r.datetime]

theorem c10_untrimmed_marker_witness :
    filter_by_times [rowA, rowB] [" 09:15"] = [] :=
  c10_untrimmed_marker_matches_nothing.2.2 [rowA, rowB]

/-! ## C4 and C5: the row-wise analytics orchestrator -/

/-- The rows the orchestrator attempts: the merged frame with the `T`
column attached, restricted to strictly positive time-to-expiry. -/
def validRows (d : DateTime) (merged : List MergedRow) : List RowWithT :=
  (merged.map (fun row => ({ toMergedRow := row, T := Tof d row } : RowWithT))).filter
    (fun row => decide (0 < row.T))

/-- The append-per-success loop is a `filterMap`. -/
theorem foldl_tryRow (env : Env) (file_info : FileInfo) (params : Params)
    (l : List RowWithT) :
    ∀ acc : List ResultRow,
      l.foldl (fun results row =>
        match tryRow env file_info params row with
        | some res => results ++ [res]
        | none => results) acc
      = acc ++ l.filterMap (tryRow env file_info params) := by
  induction l with
  | nil => intro acc; simp
  | cons x xs ih =>
    intro acc
    cases hx : tryRow env file_info params x with
    | none =>
      simp only [List.foldl_cons, List.filterMap_cons, hx]
      exact ih acc
    | some res =>
      simp only [List.foldl_cons, List.filterMap_cons, hx]
      rw [ih]
      simp

/-- Closed form of `calculate_all_greeks` when the expiry string parses. -/
theorem calculate_all_greeks_eq (env : Env) (merged : List MergedRow)
    (file_info : FileInfo) (params : Params) (d : DateTime)
    (h : strptimeYmd file_info.expiry = .ok d) :
    calculate_all_greeks env merged file_info params
      = .ok ((validRows d merged).filterMap (tryRow env file_info params)) := by
  unfold calculate_all_greeks
  by_cases hm : merged.isEmpty = true
  · rw [if_pos hm]
    have hnil : merged = [] := by
      cases merged with
      | nil => rfl
      | cons a l => simp at hm
    subst hnil
    simp [validRows]
  · rw [if_neg hm, h]
    show (if (validRows d merged).isEmpty = true then Except.ok []
      else .ok ((validRows d merged).foldl (fun results row =>
        match tryRow env file_info params row with
        | some res => results ++ [res]
        | none => results) [])) = _
    by_cases hv : (validRows d merged).isEmpty = true
    · rw [if_pos hv]
      have hnil : validRows d merged = [] := by
        revert hv
        cases validRows d merged with
        | nil => intro _; rfl
        | cons a l => intro hv; simp at hv
      rw [hnil]
      rfl
    · rw [if_neg hv, foldl_tryRow]
      simp

/-- A parsed `%Y-%m-%d` date carries the midnight clock. -/
theorem strptimeYmd_midnight (s : String) (d : DateTime)
    (h : strptimeYmd s = .ok d) : d.hour = 0 ∧ d.minute = 0 ∧ d.second = 0 := by
  unfold strptimeYmd at h
  repeat split at h
  all_goals cases h
  all_goals exact ⟨rfl, rfl, rfl⟩

theorem length_filterMap_countP {α β : Type} (f : α → Option β) (l : List α) :
    (l.filterMap f).length = l.countP (fun a => (f a).isSome) := by
  induction l with
  | nil => rfl
  | cons x xs ih =>
    rw [List.filterMap_cons, List.countP_cons]
    cases hx : f x <;> simp [hx, ih]

/-- C4: per-row failures are isolated.  An empty aligned frame yields an
empty result before any computation (even before the expiry parse); with a
parsed expiry the function always returns `.ok` — data-level solver or
formula failures never raise — and the output is exactly one row per
attempted observation whose two external calls succeed: a row on which
they fail is skipped while every other successful row still contributes. -/
theorem c4_row_failure_isolation (env : Env) (file_info : FileInfo) (params : Params) :
    calculate_all_greeks env [] file_info params = .ok [] ∧
    ∀ (merged : List MergedRow) (d : DateTime), strptimeYmd file_info.expiry = .ok d →
      calculate_all_greeks env merged file_info params
        = .ok ((validRows d merged).filterMap (tryRow env file_info params)) ∧
      ((validRows d merged).filterMap (tryRow env file_info params)).length
        = (validRows d merged).countP
            (fun row => (tryRow env file_info params row).isSome) ∧
      ∀ row ∈ validRows d merged, ∀ res, tryRow env file_info params row = some res →
        res ∈ (validRows d merged).filterMap (tryRow env file_info params) := by
  refine ⟨rfl, ?_⟩
  intro merged d h
  refine ⟨calculate_all_greeks_eq env merged file_info params d h,
          length_filterMap_countP _ _, ?_⟩
  intro row hrow res hres
  exact List.mem_filterMap.mpr ⟨row, hrow, hres⟩

/-- A success-everywhere solver environment, except that the volatility
solve diverges on observations stamped at minute 3. -/
def envSolver : Env :=
  { noopEnv with
    implied_volatility := fun row =>
      if row.datetime.minute = 3 then .error (.exn "iv did not converge")
      else .ok (mkRat 1 5),
    compute_greeks := fun _ _ _ _ _ _ => .ok [("delta", mkRat 1 2)] }

def params0 : Params := ⟨mkRat 5 100, default_time_filter⟩

def mergedRowAt (mi : Fin 60) : MergedRow :=
  ⟨⟨2024, 6, 27, 10, mi, 0⟩, 100, "call", 5, some 100⟩

/-- Ten aligned observations, minutes 0 through 9 of the same hour. -/
def merged10 : List MergedRow :=
  [mergedRowAt 0, mergedRowAt 1, mergedRowAt 2, mergedRowAt 3, mergedRowAt 4,
   mergedRowAt 5, mergedRowAt 6, mergedRowAt 7, mergedRowAt 8, mergedRowAt 9]

def dJun28 : DateTime := ⟨2024, 6, 28, 0, 0, 0⟩

theorem c4_row_failure_isolation_witness :
    merged10.length = 10 ∧
    calculate_all_greeks envSolver merged10 fi0 params0
      = .ok ((validRows dJun28 merged10).filterMap (tryRow envSolver fi0 params0)) ∧
    ((validRows dJun28 merged10).filterMap (tryRow envSolver fi0 params0)).length = 9 :=
  ⟨by decide,
   ((c4_row_failure_isolation envSolver fi0 params0).2 merged10 dJun28 (by decide)).1,
   by decide⟩

/-- Modelled on the specification text of §4.5: time-to-expiry in years is
`(expiry_datetime − observation_timestamp) / (365 days)`, the expiry date
taken at midnight in the observation's clock. -/
def timeToExpirySpec (expiry_date obs : DateTime) : ℚ :=
  ((toSec expiry_date - toSec obs : ℤ) : ℚ) / ((365 * 24 * 60 * 60 : ℕ) : ℚ)

theorem Tof_eq_spec (d : DateTime) (row : MergedRow) :
    Tof d row = timeToExpirySpec d row.datetime := by
  unfold Tof timeToExpirySpec
  rw [Rat.mkRat_eq_div]

/-- C5: with a parsed expiry (which always sits at midnight), the
orchestrator computes `T` for every aligned observation by the §4.5
formula and attempts exactly the observations with strictly positive `T`:
`T ≤ 0` rows are excluded, every `T > 0` row reaches the external calls. -/
theorem c5_expiry_boundary (env : Env) (file_info : FileInfo) (params : Params)
    (merged : List MergedRow) (d : DateTime)
    (h : strptimeYmd file_info.expiry = .ok d) :
    (d.hour = 0 ∧ d.minute = 0 ∧ d.second = 0) ∧
    calculate_all_greeks env merged file_info params
      = .ok (((merged.filter
          (fun row => decide (0 < timeToExpirySpec d row.datetime))).map
          (fun row => ({ toMergedRow := row, T := Tof d row } : RowWithT))).filterMap
          (tryRow env file_info params)) := by
  refine ⟨strptimeYmd_midnight _ _ h, ?_⟩
  rw [calculate_all_greeks_eq env merged file_info params d h]
  unfold validRows
  rw [List.filter_map]
  refine congrArg Except.ok (congrArg _ (congrArg _ ?_))
  apply List.filter_congr
  intro row _
  simp [Function.comp_def, Tof_eq_spec]

def rowT0 : MergedRow := ⟨⟨2024, 6, 28, 0, 0, 0⟩, 100, "call", 5, some 100⟩
def rowT1 : MergedRow := ⟨⟨2024, 6, 27, 23, 59, 59⟩, 100, "call", 5, some 100⟩

theorem c5_expiry_boundary_witness :
    (dJun28.hour = 0 ∧ dJun28.minute = 0 ∧ dJun28.second = 0) ∧
    timeToExpirySpec dJun28 rowT0.datetime = 0 ∧
    timeToExpirySpec dJun28 rowT1.datetime = mkRat 1 31536000 ∧
    Except.ok (((([rowT0, rowT1].filter
        (fun row => decide (0 < timeToExpirySpec dJun28 row.datetime))).map
        (fun row => ({ toMergedRow := row, T := Tof dJun28 row } : RowWithT))).filterMap
        (tryRow envSolver fi0 params0)) : List ResultRow)
      = (.ok [⟨"2024-06-27T23:59:59", "2024-06-28", 100, "call",
              [("delta", mkRat 1 2)]⟩] : Except PyErr (List ResultRow)) := by
  obtain ⟨h1, h2⟩ :=
    c5_expiry_boundary envSolver fi0 params0 [rowT0, rowT1] dJun28 (by decide)
  refine ⟨h1, ?_, ?_, h2.symm.trans (by decide)⟩
  · show ((toSec dJun28 - toSec rowT0.datetime : ℤ) : ℚ) / _ = 0
    rw [show (toSec dJun28 - toSec rowT0.datetime : ℤ) = 0 from by decide]
    norm_num
  · show ((toSec dJun28 - toSec rowT1.datetime : ℤ) : ℚ) / _ = mkRat 1 31536000
    rw [show (toSec dJun28 - toSec rowT1.datetime : ℤ) = 1 from by decide,
        Rat.mkRat_eq_div]

/-! ## C7 and C9: cache-key derivation -/

/-- C7: key derivation is deterministic — two parameter structures that
agree after recursive mapping-key-order normalization serialize to the
same canonical string, hence share the 256-bit digest and the derived
`prefix_hexdigest` key. -/
theorem c7_cache_key_deterministic (pfx : String) (P1 P2 : JVal)
    (h : sortJsonKeys P1 = sortJsonKeys P2) :
    get_cache_key pfx P1 = get_cache_key pfx P2 := by
  unfold get_cache_key jsonDumpsSorted
  rw [h]

def jOrderA : JVal :=
  .obj [("time_filter", .arr [.str "09:15", .str "10:15"]), ("r", .num (mkRat 5 100))]

def jOrderB : JVal :=
  .obj [("r", .num (mkRat 5 100)), ("time_filter", .arr [.str "09:15", .str "10:15"])]

theorem c7_cache_key_deterministic_witness :
    jEmit jOrderA ≠ jEmit jOrderB ∧
    get_cache_key "greeks" jOrderA = get_cache_key "greeks" jOrderB :=
  ⟨by decide, c7_cache_key_deterministic "greeks" jOrderA jOrderB rfl⟩

/-- C9: marker order is part of the fingerprint — canonicalization sorts
only mapping keys, never list elements, so permuted `time_filter` lists
yield different full-result cache keys (a reordered-but-equal marker set
misses the cache). -/
theorem c9_marker_order_changes_key :
    ["09:15", "10:15"].Perm ["10:15", "09:15"] ∧
    get_cache_key "greeks" (paramsJson ⟨mkRat 5 100, ["09:15", "10:15"]⟩)
      ≠ get_cache_key "greeks" (paramsJson ⟨mkRat 5 100, ["10:15", "09:15"]⟩) :=
  ⟨by decide, by decide⟩

/-! ## C1: the asof merge -/

theorem betterSpot_dist_le (t : Int) (s cur : SpotRow) (h : betterSpot t s cur) :
    spotDist s t ≤ spotDist cur t := by
  rcases h with h | ⟨h, _⟩
  · exact le_of_lt h
  · exact le_of_eq h

theorem nearStep_none_within (t : Int) (s : SpotRow) (h : spotDist s t ≤ 60) :
    nearStep t none s = some s := by
  unfold nearStep; rw [if_pos h]

theorem nearStep_better (t : Int) (s cur : SpotRow) (h : spotDist s t ≤ 60)
    (hb : betterSpot t s cur) : nearStep t (some cur) s = some s := by
  unfold nearStep; rw [if_pos h]; exact if_pos hb

theorem nearStep_keep (t : Int) (s cur : SpotRow) (h : spotDist s t ≤ 60)
    (hb : ¬ betterSpot t s cur) : nearStep t (some cur) s = some cur := by
  unfold nearStep; rw [if_pos h]; exact if_neg hb

theorem nearStep_far (t : Int) (acc : Option SpotRow) (s : SpotRow)
    (h : ¬ spotDist s t ≤ 60) : nearStep t acc s = acc := by
  unfold nearStep; rw [if_neg h]

theorem nearStep_tol (t : Int) (acc : Option SpotRow) (s : SpotRow)
    (h : ∀ a, acc = some a → spotDist a t ≤ 60) :
    ∀ a, nearStep t acc s = some a → spotDist a t ≤ 60 := by
  intro a ha
  by_cases h60 : spotDist s t ≤ 60
  · cases acc with
    | none => rw [nearStep_none_within t s h60] at ha; cases ha; exact h60
    | some cur =>
      by_cases hb : betterSpot t s cur
      · rw [nearStep_better t s cur h60 hb] at ha; cases ha; exact h60
      · rw [nearStep_keep t s cur h60 hb] at ha; cases ha; exact h _ rfl
  · rw [nearStep_far t acc s h60] at ha
    exact h a ha

/-- Fold invariant of the nearest-within-tolerance scan: a produced
candidate is within tolerance, comes from the accumulator or the list, and
is at minimal distance among the accumulator and every in-tolerance
element scanned. -/
theorem foldl_nearStep_spec (t : Int) :
    ∀ (l : List SpotRow) (acc : Option SpotRow),
      (∀ a, acc = some a → spotDist a t ≤ 60) →
      ∀ r, l.foldl (nearStep t) acc = some r →
        spotDist r t ≤ 60 ∧
        (acc = some r ∨ r ∈ l) ∧
        (∀ a, acc = some a → spotDist r t ≤ spotDist a t) ∧
        (∀ s ∈ l, spotDist s t ≤ 60 → spotDist r t ≤ spotDist s t) := by
  intro l
  induction l with
  | nil =>
    intro acc hacc r hr
    simp only [List.foldl_nil] at hr
    refine ⟨hacc r hr, Or.inl hr, ?_, ?_⟩
    · intro a ha
      rw [hr] at ha
      cases ha
      exact le_refl _
    · intro s hs
      exact absurd hs (List.not_mem_nil s)
  | cons x xs ih =>
    intro acc hacc r hr
    simp only [List.foldl_cons] at hr
    have hacc' := nearStep_tol t acc x hacc
    obtain ⟨h1, h2, h3, h4⟩ := ih (nearStep t acc x) hacc' r hr
    refine ⟨h1, ?_, ?_, ?_⟩
    · rcases h2 with h2 | h2
      · by_cases h60 : spotDist x t ≤ 60
        · cases acc with
          | none =>
            rw [nearStep_none_within t x h60] at h2
            cases h2
            exact Or.inr (List.mem_cons_self _ _)
          | some cur =>
            by_cases hb : betterSpot t x cur
            · rw [nearStep_better t x cur h60 hb] at h2
              cases h2
              exact Or.inr (List.mem_cons_self _ _)
            · rw [nearStep_keep t x cur h60 hb] at h2
              exact Or.inl h2
        · rw [nearStep_far t acc x h60] at h2
          exact Or.inl h2
      · exact Or.inr (List.mem_cons_of_mem x h2)
    · intro a ha
      subst ha
      by_cases h60 : spotDist x t ≤ 60
      · by_cases hb : betterSpot t x a
        · exact le_trans (h3 x (nearStep_better t x a h60 hb)) (betterSpot_dist_le t x a hb)
        · exact h3 a (nearStep_keep t x a h60 hb)
      · exact h3 a (nearStep_far t (some a) x h60)
    · intro s hs h60s
      rcases List.mem_cons.mp hs with rfl | hsx
      · cases hacc0 : acc with
        | none =>
          rw [hacc0] at hr h3
          exact h3 s (nearStep_none_within t s h60s)
        | some cur =>
          rw [hacc0] at hr h3
          by_cases hb : betterSpot t s cur
          · exact h3 s (nearStep_better t s cur h60s hb)
          · have hrc := h3 cur (nearStep_keep t s cur h60s hb)
            have hcs : spotDist cur t ≤ spotDist s t := by
              unfold betterSpot at hb
              push_neg at hb
              exact hb.1
            exact le_trans hrc hcs
      · exact h4 s hsx h60s

theorem foldl_nearStep_isSome (t : Int) :
    ∀ (l : List SpotRow) (acc : Option SpotRow),
      (l.foldl (nearStep t) acc).isSome
        = (acc.isSome || l.any (fun s => decide (spotDist s t ≤ 60))) := by
  intro l
  induction l with
  | nil => intro acc; simp
  | cons x xs ih =>
    intro acc
    rw [List.foldl_cons, List.any_cons, ih]
    by_cases h60 : spotDist x t ≤ 60
    · cases acc with
      | none => rw [nearStep_none_within t x h60]; simp [h60]
      | some cur =>
        by_cases hb : betterSpot t x cur
        · rw [nearStep_better t x cur h60 hb]; simp [h60]
        · rw [nearStep_keep t x cur h60 hb]; simp [h60]
    · rw [nearStep_far t acc x h60]; simp [h60]

/-- A nearest match is an in-tolerance element at minimal distance. -/
theorem nearestSpot_spec (spots : List SpotRow) (t : Int) (r : SpotRow)
    (h : nearestSpot spots t = some r) :
    r ∈ spots ∧ spotDist r t ≤ 60 ∧ ∀ s ∈ spots, spotDist r t ≤ spotDist s t := by
  obtain ⟨h1, h2, _, h4⟩ :=
    foldl_nearStep_spec t spots none (fun a ha => by cases ha) r h
  refine ⟨?_, h1, ?_⟩
  · rcases h2 with h2 | h2
    · cases h2
    · exact h2
  · intro s hs
    by_cases h60 : spotDist s t ≤ 60
    · exact h4 s hs h60
    · omega

/-- The scan yields nothing exactly when no element is within tolerance. -/
theorem nearestSpot_eq_none_iff (spots : List SpotRow) (t : Int) :
    nearestSpot spots t = none ↔ ∀ s ∈ spots, ¬ spotDist s t ≤ 60 := by
  constructor
  · intro h s hs h60
    have hsome : (spots.foldl (nearStep t) none).isSome = true := by
      rw [foldl_nearStep_isSome]
      simp only [Option.isSome_none, Bool.false_or, List.any_eq_true]
      exact ⟨s, hs, by simpa using h60⟩
    rw [show spots.foldl (nearStep t) none = nearestSpot spots t from rfl, h] at hsome
    cases hsome
  · intro h
    cases hn : nearestSpot spots t with
    | none => rfl
    | some r =>
      obtain ⟨hr1, hr2, _⟩ := nearestSpot_spec spots t r hn
      exact absurd hr2 (h r hr1)

/-- The option-side fields of a merged row. -/
def dropSpot (m : MergedRow) : OptionRow := ⟨m.datetime, m.strike, m.type, m.close⟩

/-- C1 (amended): the asof merge keeps every option observation exactly
once, in sorted order (a left join — rows with no in-tolerance spot are
retained, their spot field missing, not dropped); the spot field is
missing iff no spot observation lies within 60 seconds (inclusive) either
way, and an attached value is the close of a spot observation within 60
seconds at minimal distance among all spot observations. -/
theorem c1_asof_merge (option_df : List OptionRow) (spot_df : List SpotRow) :
    (merge_with_spot option_df spot_df).map dropSpot = sortOptionRows option_df ∧
    ∀ m ∈ merge_with_spot option_df spot_df,
      (m.close_spot = none ↔
        ∀ s ∈ spot_df, ¬ (toSec s.datetime - toSec m.datetime).natAbs ≤ 60) ∧
      ∀ c, m.close_spot = some c →
        ∃ s ∈ spot_df, s.close = c ∧ (toSec s.datetime - toSec m.datetime).natAbs ≤ 60 ∧
          ∀ s2 ∈ spot_df,
            (toSec s.datetime - toSec m.datetime).natAbs
              ≤ (toSec s2.datetime - toSec m.datetime).natAbs := by
  have hperm : ∀ s : SpotRow, s ∈ sortSpotRows spot_df ↔ s ∈ spot_df := by
    intro s
    exact (List.perm_insertionSort _ spot_df).mem_iff
  constructor
  · unfold merge_with_spot
    rw [List.map_map]
    have hcomp : (dropSpot ∘ fun o : OptionRow =>
        ({ datetime := o.datetime, strike := o.strike, type := o.type, close := o.close,
           close_spot := (nearestSpot (sortSpotRows spot_df) (toSec o.datetime)).map
             (fun s => s.close) } : MergedRow)) = id := by
      funext o
      rfl
    rw [hcomp, List.map_id]
  · intro m hm
    unfold merge_with_spot at hm
    rw [List.mem_map] at hm
    obtain ⟨o, ho, rfl⟩ := hm
    constructor
    · show (nearestSpot (sortSpotRows spot_df) (toSec o.datetime)).map (fun s => s.close)
        = none ↔ _
      rw [Option.map_eq_none', nearestSpot_eq_none_iff]
      unfold spotDist
      constructor
      · intro h s hs
        exact h s ((hperm s).mpr hs)
      · intro h s hs
        exact h s ((hperm s).mp hs)
    · intro c hc
      replace hc : (nearestSpot (sortSpotRows spot_df) (toSec o.datetime)).map
          (fun s => s.close) = some c := hc
      rw [Option.map_eq_some'] at hc
      obtain ⟨rr, hrr, hclose⟩ := hc
      obtain ⟨hmem, htol, hmin⟩ := nearestSpot_spec _ _ _ hrr
      refine ⟨rr, (hperm rr).mp hmem, hclose, htol, ?_⟩
      intro s2 hs2
      exact hmin s2 ((hperm s2).mpr hs2)

def oC : OptionRow := ⟨⟨2024, 6, 27, 10, 0, 0⟩, 100, "call", 5⟩
def sC61 : SpotRow := ⟨⟨2024, 6, 27, 10, 1, 1⟩, 200⟩
def sC60 : SpotRow := ⟨⟨2024, 6, 27, 10, 1, 0⟩, 201⟩

/-- C1 counterexample: with the only spot observation 61 seconds away
(outside tolerance), the option observation is NOT dropped — the merge is
a left join and retains it with a missing spot field. -/
theorem c1_unmatched_row_retained :
    (toSec sC61.datetime - toSec oC.datetime).natAbs = 61 ∧
    merge_with_spot [oC] [sC61]
      = [{ datetime := oC.datetime, strike := 100, type := "call", close := 5,
           close_spot := none }] ∧
    merge_with_spot [oC] [sC61] ≠ [] :=
  ⟨by decide, by decide, by decide⟩

theorem c1_asof_merge_witness :
    (toSec sC60.datetime - toSec oC.datetime).natAbs = 60 ∧
    (∃ s ∈ [sC60], s.close = 201 ∧
      (toSec s.datetime - toSec oC.datetime).natAbs ≤ 60 ∧
      ∀ s2 ∈ [sC60],
        (toSec s.datetime - toSec oC.datetime).natAbs
          ≤ (toSec s2.datetime - toSec oC.datetime).natAbs) :=
  ⟨by decide,
   ((c1_asof_merge [oC] [sC60]).2
      { datetime := oC.datetime, strike := 100, type := "call", close := 5,
        close_spot := some 201 } (by decide)).2 201 rfl⟩

/-! ## C6: aggregate-result caching policy -/

/-- A cache write holding an aggregate result payload. -/
def isResultsWrite (w : CacheWrite) : Bool :=
  match w.2.1 with
  | .results _ => true
  | _ => false

/-- Python truthiness of `if cached_result := cache.get(key)` for the
aggregate cache: only a non-empty cached list is a hit. -/
def isTruthyResultsHit : Option CacheVal → Bool
  | some (.results (_ :: _)) => true
  | _ => false

/-- A per-series cache write: key under the `spot_`/`option_` namespace,
payload a data frame (never an aggregate result). -/
def seriesWrite (w : CacheWrite) : Prop :=
  (∃ a, w.1 = "spot_" ++ a ∨ w.1 = "option_" ++ a) ∧ isResultsWrite w = false

theorem get_spot_data_writes (env : Env) (cache : Cache) (df : List SpotRow)
    (c : Cache) (ws : List CacheWrite)
    (h : get_spot_data env cache = .ok (df, c, ws)) :
    ∀ w ∈ ws, seriesWrite w := by
  unfold get_spot_data at h
  split at h
  · exact Except.noConfusion h
  · split at h
    · cases h
      intro w hw
      exact absurd hw (List.not_mem_nil w)
    · split at h
      · exact Except.noConfusion h
      · cases h
        intro w hw
        rw [List.mem_singleton] at hw
        subst hw
        exact ⟨⟨_, Or.inl rfl⟩, rfl⟩

theorem get_option_data_writes (env : Env) (cache : Cache) (file_info : FileInfo)
    (df : List OptionRow) (c : Cache) (ws : List CacheWrite)
    (h : get_option_data env cache file_info = .ok (df, c, ws)) :
    ∀ w ∈ ws, seriesWrite w := by
  unfold get_option_data at h
  split at h
  · exact Except.noConfusion h
  · rename_i file_mtime heqm
    split at h
    · cases h
      intro w hw
      exact absurd hw (List.not_mem_nil w)
    · split at h
      · cases h
        intro w hw
        exact absurd hw (List.not_mem_nil w)
      · cases h
        intro w hw
        rw [List.mem_singleton] at hw
        subst hw
        refine ⟨⟨floatRepr file_mtime ++ "_" ++ file_info.expiry ++ "_" ++
          floatRepr file_info.strike ++ "_" ++ file_info.type, Or.inr ?_⟩, rfl⟩
        unfold option_cache_key
        simp only [String.append_assoc]

theorem process_files_writes (env : Env) (params : Params) (spot_df : List SpotRow) :
    ∀ (files : List FileInfo) (acc : List ResultRow × Cache × List CacheWrite)
      (res : List ResultRow) (c : Cache) (ws : List CacheWrite),
      process_files env params spot_df files acc = .ok (res, c, ws) →
      ∀ w ∈ ws, w ∈ acc.2.2 ∨ seriesWrite w := by
  intro files
  induction files with
  | nil =>
    intro acc res c ws h w hw
    cases h
    exact Or.inl hw
  | cons file_info rest ih =>
    intro acc res c ws h w hw
    unfold process_files at h
    split at h
    · exact Except.noConfusion h
    · rename_i option_df c' w' hg
      have hw' : ∀ v ∈ w', seriesWrite v :=
        get_option_data_writes env acc.2.1 file_info option_df c' w' hg
      have step : ∀ res0 : List ResultRow,
          process_files env params spot_df rest (res0, c', acc.2.2 ++ w')
            = .ok (res, c, ws) →
          w ∈ acc.2.2 ∨ seriesWrite w := by
        intro res0 hrec
        rcases ih (res0, c', acc.2.2 ++ w') res c ws hrec w hw with hmem | hser
        · rcases List.mem_append.mp hmem with h1 | h2
          · exact Or.inl h1
          · exact Or.inr (hw' w h2)
        · exact Or.inr hser
      split at h
      · exact step acc.1 h
      · split at h
        · exact step acc.1 h
        · split at h
          · exact step acc.1 h
          · split at h
            · exact Except.noConfusion h
            · exact step _ h

theorem spot_key_ne_greeks (a b : String) : "spot_" ++ a ≠ "greeks" ++ "_" ++ b := by
  intro h
  have hd := congrArg String.data h
  rw [String.data_append, String.data_append, String.data_append] at hd
  rw [show "spot_".data = ['s', 'p', 'o', 't', '_'] from rfl,
      show "greeks".data = ['g', 'r', 'e', 'e', 'k', 's'] from rfl,
      show "_".data = ['_'] from rfl] at hd
  simp at hd

theorem option_key_ne_greeks (a b : String) : "option_" ++ a ≠ "greeks" ++ "_" ++ b := by
  intro h
  have hd := congrArg String.data h
  rw [String.data_append, String.data_append, String.data_append] at hd
  rw [show "option_".data = ['o', 'p', 't', 'i', 'o', 'n', '_'] from rfl,
      show "greeks".data = ['g', 'r', 'e', 'e', 'k', 's'] from rfl,
      show "_".data = ['_'] from rfl] at hd
  simp at hd

theorem applyWrites_ne_key (key : String) :
    ∀ (ws : List CacheWrite) (cache : Cache),
      (∀ w ∈ ws, w.1 ≠ key) → applyWrites cache ws key = cache key := by
  intro ws
  induction ws with
  | nil => intro cache _; rfl
  | cons w t ih =>
    intro cache h
    show applyWrites (cacheSet cache w.1 w.2.1) t key = cache key
    rw [ih (cacheSet cache w.1 w.2.1) (fun v hv => h v (List.mem_cons_of_mem w hv))]
    unfold cacheSet
    rw [if_neg (fun hk => h w (List.mem_cons_self w t) hk.symm)]

/-- On a non-truthy aggregate-cache lookup, the view takes the recompute
path. -/
theorem greeks_view_eq_compute (env : Env) (request_r request_time_filter : Option String)
    (cache : Cache) (params : Params)
    (hp : view_params request_r request_time_filter = .ok params)
    (hmiss : isTruthyResultsHit (cache (get_cache_key "greeks" (paramsJson params))) = false) :
    greeks_view env request_r request_time_filter cache
      = greeks_view_compute env params (get_cache_key "greeks" (paramsJson params)) cache := by
  unfold greeks_view
  rw [hp]
  show (match cache (get_cache_key "greeks" (paramsJson params)) with
    | some (.results (x :: xs)) => Except.ok (x :: xs, [])
    | _ => greeks_view_compute env params (get_cache_key "greeks" (paramsJson params)) cache)
    = _
  rcases hv : cache (get_cache_key "greeks" (paramsJson params)) with _ | v
  · rfl
  · cases v with
    | spotDf d => rfl
    | optionDf d => rfl
    | results rs =>
      cases rs with
      | nil => rfl
      | cons x xs =>
        rw [hv] at hmiss
        simp [isTruthyResultsHit] at hmiss

/-- C6: when the aggregate-cache lookup misses and the view completes, the
aggregate result is written (under the derived fingerprint key, with the
1-hour TTL) exactly when it is non-empty; an empty aggregate is returned
but never written, and the derived key's cache entry is untouched, so an
immediate identical request still misses the aggregate cache and
recomputes. -/
theorem c6_aggregate_cache_policy (env : Env)
    (request_r request_time_filter : Option String) (cache : Cache) (params : Params)
    (res : List ResultRow) (writes : List CacheWrite)
    (hp : view_params request_r request_time_filter = .ok params)
    (hmiss : isTruthyResultsHit (cache (get_cache_key "greeks" (paramsJson params))) = false)
    (hrun : greeks_view env request_r request_time_filter cache = .ok (res, writes)) :
    (writes.filter isResultsWrite
      = if res.isEmpty then []
        else [(get_cache_key "greeks" (paramsJson params), CacheVal.results res, 3600)]) ∧
    (res = [] → applyWrites cache writes (get_cache_key "greeks" (paramsJson params))
      = cache (get_cache_key "greeks" (paramsJson params))) := by
  rw [greeks_view_eq_compute env request_r request_time_filter cache params hp hmiss] at hrun
  unfold greeks_view_compute at hrun
  split at hrun
  · exact Except.noConfusion hrun
  · rename_i spot_df cache1 w1 hspot
    split at hrun
    · exact Except.noConfusion hrun
    · rename_i all_results c2 w2 hproc
      cases hrun
      have hw1 : ∀ w ∈ w1, seriesWrite w :=
        get_spot_data_writes env cache spot_df cache1 w1 hspot
      have hw2 : ∀ w ∈ w2, seriesWrite w := by
        intro w hw
        rcases process_files_writes env params spot_df env.option_files
            ([], cache1, []) res c2 w2 hproc w hw with h0 | h
        · exact absurd h0 (List.not_mem_nil w)
        · exact h
      constructor
      · rw [List.filter_append, List.filter_append]
        have f1 : w1.filter isResultsWrite = [] :=
          List.filter_eq_nil_iff.mpr (fun w hw => by simp [(hw1 w hw).2])
        have f2 : w2.filter isResultsWrite = [] :=
          List.filter_eq_nil_iff.mpr (fun w hw => by simp [(hw2 w hw).2])
        rw [f1, f2]
        by_cases hres : res.isEmpty = true
        · rw [if_pos hres]
          rfl
        · rw [if_neg hres]
          rfl
      · intro hres0
        have htail : (if res.isEmpty = true then ([] : List CacheWrite)
            else [(get_cache_key "greeks" (paramsJson params),
                   CacheVal.results res, 3600)]) = [] := by
          rw [hres0]
          rfl
        rw [htail, List.append_nil]
        apply applyWrites_ne_key
        intro w hw
        have hsw : seriesWrite w := by
          rcases List.mem_append.mp hw with h | h
          · exact hw1 w h
          · exact hw2 w h
        obtain ⟨⟨a, ha | ha⟩, _⟩ := hsw
        · rw [ha]
          exact spot_key_ne_greeks a _
        · rw [ha]
          exact option_key_ne_greeks a _

def envC6 : Env := { noopEnv with spot_read := .ok [⟨⟨2024, 6, 27, 10, 0, 0⟩, 100⟩] }

def writesC6 : List CacheWrite :=
  [(spot_cache_key 1, .spotDf [⟨⟨2024, 6, 27, 10, 0, 0⟩, 100⟩], 86400)]

theorem c6_aggregate_cache_policy_witness :
    writesC6.filter isResultsWrite = [] ∧
    applyWrites emptyCache writesC6 (get_cache_key "greeks" (paramsJson params0)) = none := by
  obtain ⟨h1, h2⟩ := c6_aggregate_cache_policy envC6 none none emptyCache params0 []
    writesC6 (by decide) rfl (by decide)
  exact ⟨h1, h2 rfl⟩
